import Mathlib

/-!
Shallow embedding of the citation-aware search index of the research-mcp
repository: the citation graph builder (citationGraph.ts), the document
store and its transaction discipline (search/database.ts), the indexing
orchestrator (indexingTrigger.ts), and the search API scoring
(searchApi.ts: searchDocuments and calculateFieldScore).

Modelling conventions: JS strings are lists of characters indexed by
position (code points; the archive content in scope is ASCII so this
coincides with JS code units); JS numbers used for scores and confidence
values are rationals; the SQLite tables are lists of rows; the single
SQLite connection with at most one open transaction is a committed
snapshot plus an optional in-transaction working snapshot.
-/

namespace ResearchMCP

attribute [local semireducible] Rat.add Rat.mul Rat.inv

/-- Open metadata map of a document; only the originalUrl key is read by
the citation graph builder (matchUrlReferences) and the implicit
citation detector. -/
structure Metadata where
  originalUrl : Option String
deriving DecidableEq

/-- Document row (types.ts Document), joined with its full-text row as
getDocument and listDocuments return it. -/
structure Document where
  id : String
  title : String
  path : String
  source : String
  type : String
  date : String
  metadata : Metadata
  content : String
  query : String
deriving DecidableEq

/-- Citation row (types.ts Citation). -/
structure Citation where
  id : Option String
  sourceId : String
  targetUrl : String
  targetId : Option String
  context : String
  confidence : ℚ
deriving DecidableEq

/-- Characters matched by the JS regex class backslash-s, restricted to
its ASCII members (space, tab, newline, carriage return, vertical tab,
form feed); the unicode members do not occur in the archives. -/
def isJsWhitespace (c : Char) : Bool :=
  c == ' ' || c == '\t' || c == '\n' || c == '\r' ||
    c == Char.ofNat 11 || c == Char.ofNat 12

/-- Characters matched by the JS regex class backslash-w:
ASCII letters, digits and the underscore. -/
def isWordChar (c : Char) : Bool :=
  c.isAlphanum || c == '_'

/-- JS String.prototype.split on the regex of one-or-more whitespace:
the empty string yields one empty piece, a leading separator yields a
leading empty piece and a trailing separator a trailing empty piece.
Recursion is structural on an explicit bound; every step consumes at
least one character, so a bound of the list length (as splitOnWs passes)
is never exhausted before the list is, and the two base cases agree. -/
def splitOnWsAux : Nat → List Char → List Char → List (List Char)
  | 0, _, acc => [acc.reverse]
  | _ + 1, [], acc => [acc.reverse]
  | fuel + 1, c :: rest, acc =>
    if isJsWhitespace c then
      acc.reverse :: splitOnWsAux fuel (rest.dropWhile isJsWhitespace) []
    else
      splitOnWsAux fuel rest (c :: acc)

/-- Split a character list on runs of whitespace, with JS split
semantics. -/
def splitOnWs (cs : List Char) : List (List Char) :=
  splitOnWsAux cs.length cs []

/-- JS String.prototype.trim on a character list. -/
def trimChars (cs : List Char) : List Char :=
  ((cs.dropWhile isJsWhitespace).reverse.dropWhile isJsWhitespace).reverse

/-- Number of matches of a global literal-pattern regex against a text
(non-overlapping, leftmost first), as counted by the
text.match(new RegExp(term, "gi")) call in calculateFieldScore; the
empty pattern matches once at every position. -/
def countMatchesAux (pattern : List Char) : Nat → List Char → Nat
  | 0, _ => 0
  | _ + 1, [] => 0
  | fuel + 1, c :: rest =>
    if pattern.isPrefixOf (c :: rest) then
      1 + countMatchesAux pattern fuel (rest.drop (pattern.length - 1))
    else
      countMatchesAux pattern fuel rest

/-- Count the non-overlapping leftmost occurrences of a pattern (the
explicit bound is structural-recursion bookkeeping: one character is
consumed per step, so the text length suffices). -/
def countMatches (text pattern : List Char) : Nat :=
  if pattern = [] then text.length + 1
  else countMatchesAux pattern text.length text

/-- One match of the markdown link regex: its start index, total length,
link text and url capture groups. -/
structure LinkMatch where
  index : Nat
  length : Nat
  text : List Char
  url : List Char
deriving DecidableEq

/-- Attempt to match the regex for a markdown link (open bracket, one or
more non-bracket characters, close bracket, open paren, one or more
non-close-paren characters, close paren) at the head of the list.  The
two greedy character classes cannot cross their closing delimiter, so
the match is the maximal run up to it. -/
def matchLinkAt : List Char → Option (List Char × List Char)
  | '[' :: rest =>
    let text := rest.takeWhile (fun c => c != ']')
    if text.isEmpty then none
    else
      match rest.drop text.length with
      | ']' :: '(' :: rest2 =>
        let url := rest2.takeWhile (fun c => c != ')')
        if url.isEmpty then none
        else
          match rest2.drop url.length with
          | ')' :: _ => some (text, url)
          | _ => none
      | _ => none
  | _ => none

/-- All matches of the global markdown link regex, leftmost and
non-overlapping, with their start positions, as produced by the
linkRegex.exec loop of extractExplicitCitations. -/
def scanLinksAux : Nat → List Char → Nat → List LinkMatch
  | 0, _, _ => []
  | _ + 1, [], _ => []
  | fuel + 1, c :: rest, pos =>
    match matchLinkAt (c :: rest) with
    | some (text, url) =>
      { index := pos, length := text.length + url.length + 4,
        text := text, url := url } ::
        scanLinksAux fuel (rest.drop (text.length + url.length + 3))
          (pos + (text.length + url.length + 4))
    | none => scanLinksAux fuel rest (pos + 1)

/-- Scan a whole text for link matches (the explicit bound is
structural-recursion bookkeeping: one character is consumed per step,
so the text length suffices). -/
def scanLinks (cs : List Char) (pos : Nat) : List LinkMatch :=
  scanLinksAux cs.length cs pos

/-- JS String.prototype.substring over a character list: the characters
from startIdx (inclusive) to endIdx (exclusive). -/
def substringCU (cs : List Char) (startIdx endIdx : Nat) : List Char :=
  (cs.drop startIdx).take (endIdx - startIdx)

/-- The citation built for one markdown link match of a document:
confidence 1.0, the url capture as targetUrl, and as context the window
from 100 characters before the match to 100 characters after it
(clamped to the content; natural subtraction models Math.max(0, i-100)). -/
def linkCitation (document : Document) (m : LinkMatch) : Citation :=
  { id := none
    sourceId := document.id
    targetUrl := String.mk m.url
    targetId := none
    context := String.mk (substringCU document.content.data (m.index - 100)
      (min document.content.data.length (m.index + m.length + 100)))
    confidence := 1 }

/-- CitationGraph.extractExplicitCitations: one citation per markdown
link occurrence in the document content; empty content yields none. -/
def extractExplicitCitations (document : Document) : List Citation :=
  if document.content = "" then []
  else (scanLinks document.content.data 0).map (linkCitation document)

/-- CitationGraph.normalizeUrl: strip one leading http or https scheme,
strip one trailing slash, lowercase.  The scheme test precedes the
lowercasing, as in the source, so an uppercase scheme is not stripped. -/
def normalizeUrl (url : String) : String :=
  let cs := url.data
  let cs := if "https://".data.isPrefixOf cs then cs.drop 8
            else if "http://".data.isPrefixOf cs then cs.drop 7
            else cs
  let cs := if cs.getLast? = some '/' then cs.dropLast else cs
  String.mk (cs.map Char.toLower)

/-- CitationGraph.matchUrlReferences: re-extract the explicit citations
of the document, and for each one look for the first url-content
document whose recorded original URL normalizes to the same string as
the cited URL; on a match the citation gains that document id as
targetId.  Every citation is returned, matched or not. -/
def matchUrlReferences (document : Document)
    (urlContentDocuments : List Document) : List Citation :=
  (extractExplicitCitations document).map (fun citation =>
    match urlContentDocuments.find? (fun doc =>
        decide (normalizeUrl (doc.metadata.originalUrl.getD "") =
          normalizeUrl citation.targetUrl)) with
    | some matchingDocument =>
      { citation with targetId := some matchingDocument.id }
    | none => citation)

/-- Length of a match of the paragraph-break regex (newline, greedy
whitespace run, newline) starting at the head of the list, when there is
one.  The greedy middle part backtracks until its last character is a
newline, so the match extends to the last newline of the maximal
whitespace run following the first newline. -/
def paraBreakLen (cs : List Char) : Option Nat :=
  match cs with
  | '\n' :: rest =>
    let run := rest.takeWhile isJsWhitespace
    match (List.range run.length).foldl
        (fun acc i => if run.get? i = some '\n' then some i else acc) none with
    | some k => some (k + 2)
    | none => none
  | _ => none

/-- JS String.prototype.split on the paragraph-break regex (the
explicit bound is structural-recursion bookkeeping: one character is
consumed per step, so the text length suffices). -/
def splitParasAux : Nat → List Char → List Char → List (List Char)
  | 0, _, acc => [acc.reverse]
  | _ + 1, [], acc => [acc.reverse]
  | fuel + 1, c :: rest, acc =>
    match paraBreakLen (c :: rest) with
    | some len =>
      acc.reverse :: splitParasAux fuel (rest.drop (len - 1)) []
    | none => splitParasAux fuel rest (c :: acc)

/-- CitationGraph.extractParagraphs: split on blank-line breaks and keep
the pieces whose trimmed form is non-empty. -/
def extractParagraphs (text : List Char) : List (List Char) :=
  (splitParasAux text.length text []).filter
    (fun p => decide (0 < (trimChars p).length))

/-- Replace each maximal run of non-word characters by one space, as
the replace of one-or-more-non-word-characters with a space does (the
explicit bound is structural-recursion bookkeeping: one character is
consumed per step, so the length passed by similarityNormalize
suffices). -/
def collapseNonWordAux : Nat → List Char → List Char
  | 0, _ => []
  | _ + 1, [] => []
  | fuel + 1, c :: rest =>
    if isWordChar c then c :: collapseNonWordAux fuel rest
    else
      ' ' :: collapseNonWordAux fuel (rest.dropWhile (fun x => !isWordChar x))

/-- Collapse the non-word runs of a whole text. -/
def collapseNonWord (cs : List Char) : List Char :=
  collapseNonWordAux cs.length cs

/-- Normalization step of calculateTextSimilarity: lowercase, collapse
every run of non-word characters to a single space, trim. -/
def similarityNormalize (t : List Char) : List Char :=
  trimChars (collapseNonWord (t.map Char.toLower))

/-- The JS Set of words of a normalized text: the split pieces with
duplicates removed (first occurrences kept, matching Set insertion
order; only the size is ever used). -/
def wordSet (normalized : List Char) : List (List Char) :=
  (splitOnWs normalized).dedup

/-- CitationGraph.calculateTextSimilarity: Jaccard similarity of the two
word sets.  The word sets are never empty (splitting always yields at
least one piece), so the denominator is positive. -/
def calculateTextSimilarity (text1 text2 : List Char) : ℚ :=
  let words1 := wordSet (similarityNormalize text1)
  let words2 := wordSet (similarityNormalize text2)
  let intersectionWords := words1.filter (fun w => words2.contains w)
  let unionWords := (words1 ++ words2).dedup
  (intersectionWords.length : ℚ) / (unionWords.length : ℚ)

/-- CitationGraph.detectImplicitCitations: only for research reports;
paragraphs shorter than 100 characters are skipped; every other document
with content whose full text is more than 0.7-similar to the paragraph
yields a citation whose confidence is that similarity. -/
def detectImplicitCitations (document : Document)
    (allDocuments : List Document) : List Citation :=
  if document.content = "" ∨ document.source ≠ "research" ∨
      document.type ≠ "report" then []
  else
    ((extractParagraphs document.content.data).map (fun paragraph =>
      if paragraph.length < 100 then []
      else
        allDocuments.filterMap (fun otherDoc =>
          if otherDoc.id = document.id then none
          else if otherDoc.content = "" then none
          else
            let similarity :=
              calculateTextSimilarity paragraph otherDoc.content.data
            if 7 / 10 < similarity then
              some { id := none
                     sourceId := document.id
                     targetId := some otherDoc.id
                     targetUrl := otherDoc.metadata.originalUrl.getD ""
                     context := String.mk paragraph
                     confidence := similarity }
            else none))).flatten

/-- The citations CitationGraph.buildFromArchives collects and stores
for one research document: explicit, url-matched (a second copy of every
explicit citation, possibly resolved) and implicit, in that order. -/
def documentCitations (document : Document)
    (urlContentDocuments allDocuments : List Document) : List Citation :=
  extractExplicitCitations document ++
    matchUrlReferences document urlContentDocuments ++
    detectImplicitCitations document allDocuments

/-- The full citation list one buildFromArchives pass adds to the store:
the per-document lists over the research documents, in listDocuments
order, with the url-content documents as match candidates. -/
def buildCitations (allDocuments : List Document) : List Citation :=
  let researchDocuments :=
    allDocuments.filter (fun doc => decide (doc.source = "research"))
  let urlContentDocuments :=
    allDocuments.filter (fun doc => decide (doc.source = "url-content"))
  (researchDocuments.map (fun document =>
    documentCitations document urlContentDocuments allDocuments)).flatten

/-- Direction argument of SearchDatabase.getCitationsForDocument. -/
inductive CitationDirection
  | citing
  | cited
deriving DecidableEq

/-- SearchDatabase.getCitationsForDocument: citing selects the rows
whose target_id is the document (who cites me); cited selects the rows
whose source_id is the document (whom do I cite).  A NULL target_id
never equals the document id, as in SQL. -/
def getCitationsForDocument (citations : List Citation)
    (documentId : String) : CitationDirection → List Citation
  | CitationDirection.citing =>
    citations.filter (fun c => decide (c.targetId = some documentId))
  | CitationDirection.cited =>
    citations.filter (fun c => decide (c.sourceId = documentId))

/-- CitationGraph.findCitations: documents citing a source. -/
def findCitations (citations : List Citation) (documentId : String) :
    List Citation :=
  getCitationsForDocument citations documentId CitationDirection.citing

/-- CitationGraph.findReferences: sources cited by a document. -/
def findReferences (citations : List Citation) (documentId : String) :
    List Citation :=
  getCitationsForDocument citations documentId CitationDirection.cited

/-- Queue entry of the findRelatedDocuments breadth-first traversal. -/
structure QItem where
  id : String
  currentDepth : Nat
deriving DecidableEq

/-- Mutable state of the findRelatedDocuments loop: the queue and the
visited and related insertion-ordered sets. -/
structure TraversalState where
  queue : List QItem
  visited : List String
  related : List String
deriving DecidableEq

/-- Body of the loop over the citing list: the targetId of the citation
(when present and unvisited) is marked visited, added to related and
enqueued one level deeper. -/
def addCiting (currentDepth : Nat) (st : TraversalState) (c : Citation) :
    TraversalState :=
  match c.targetId with
  | some t =>
    if t ∈ st.visited then st
    else
      { queue := st.queue ++ [{ id := t, currentDepth := currentDepth + 1 }]
        visited := st.visited ++ [t]
        related := st.related ++ [t] }
  | none => st

/-- Body of the loop over the cited list: the sourceId of the citation
(when unvisited) is marked visited, added to related and enqueued one
level deeper. -/
def addCited (currentDepth : Nat) (st : TraversalState) (c : Citation) :
    TraversalState :=
  if c.sourceId ∈ st.visited then st
  else
    { queue :=
        st.queue ++ [{ id := c.sourceId, currentDepth := currentDepth + 1 }]
      visited := st.visited ++ [c.sourceId]
      related := st.related ++ [c.sourceId] }

/-- The while loop of findRelatedDocuments.  Fuel bounds the number of
iterations; each pop consumes one queue entry and entries are enqueued
at most once per newly visited id, so the fuel chosen by
findRelatedDocuments always suffices to drain the queue. -/
def relatedLoop (citations : List Citation) (depth : Nat) :
    Nat → TraversalState → List String
  | 0, st => st.related
  | fuel + 1, st =>
    match st.queue with
    | [] => st.related
    | item :: rest =>
      if depth ≤ item.currentDepth then
        relatedLoop citations depth fuel
          { queue := rest, visited := st.visited, related := st.related }
      else
        relatedLoop citations depth fuel
          ((findReferences citations item.id).foldl
            (addCited item.currentDepth)
            ((findCitations citations item.id).foldl
              (addCiting item.currentDepth)
              { queue := rest, visited := st.visited, related := st.related }))

/-- CitationGraph.findRelatedDocuments: breadth-first traversal from the
document up to the given depth, starting with the origin visited, and
with the origin removed from the related set at the end. -/
def findRelatedDocuments (citations : List Citation) (documentId : String)
    (depth : Nat) : List String :=
  (relatedLoop citations depth (2 * citations.length + 2)
    { queue := [{ id := documentId, currentDepth := 0 }]
      visited := [documentId]
      related := [] }).filter (fun r => decide (r ≠ documentId))

/-- The metrics part of SearchAPI.generateCitationReport. -/
structure CitationReportMetrics where
  outgoingCount : Nat
  incomingCount : Nat
  averageConfidence : ℚ
deriving DecidableEq

/-- The two persisted tables of the store: documents (joined with their
full-text rows) and citations. -/
structure DbState where
  documents : List Document
  citations : List Citation
deriving DecidableEq

/-- SearchDatabase.getDocument: the row with the given id, if any. -/
def getDocument (db : DbState) (id : String) : Option Document :=
  db.documents.find? (fun d => decide (d.id = id))

/-- SearchAPI.generateCitationReport, metrics part: none models the
not-found error for an unknown id.  The citing list (rows whose
target_id is the document) is counted as outgoingCount and the cited
list (rows whose source_id is the document) as incomingCount, exactly as
the source assigns them; averageConfidence is the mean confidence over
both lists, 0 when there are no edges. -/
def generateCitationReport (db : DbState) (documentId : String) :
    Option CitationReportMetrics :=
  match getDocument db documentId with
  | none => none
  | some _ =>
    let citing := getCitationsForDocument db.citations documentId
      CitationDirection.citing
    let cited := getCitationsForDocument db.citations documentId
      CitationDirection.cited
    let allConfidences := (citing ++ cited).map (fun c => c.confidence)
    some { outgoingCount := citing.length
           incomingCount := cited.length
           averageConfidence :=
             if 0 < allConfidences.length then
               allConfidences.foldl (fun sum conf => sum + conf) 0 /
                 (allConfidences.length : ℚ)
             else 0 }

/-- SearchAPI.calculateFieldScore: 0 for an empty text or query;
otherwise the sum, over the whitespace-separated terms of the lowercased
query, of the number of occurrences of the term in the lowercased text,
counting a term only when it occurs at all. -/
def calculateFieldScore (text query : String) : ℚ :=
  if text = "" ∨ query = "" then 0
  else
    let normalizedText := text.data.map Char.toLower
    let normalizedQuery := query.data.map Char.toLower
    let queryTerms := splitOnWs normalizedQuery
    queryTerms.foldl
      (fun score term =>
        if 0 < countMatches normalizedText term then
          score + (countMatches normalizedText term : ℚ)
        else score)
      0

/-- One iteration of the fields loop of SearchAPI.searchDocuments: a
non-empty title field scores double, content scores single, the query
field scores one-and-a-half. -/
def scoreStep (document : Document) (query : String) (score : ℚ)
    (field : String) : ℚ :=
  let score :=
    if field = "title" ∧ document.title ≠ "" then
      (if 0 < calculateFieldScore document.title query then
        score + calculateFieldScore document.title query * 2
      else score)
    else score
  let score :=
    if field = "content" ∧ document.content ≠ "" then
      (if 0 < calculateFieldScore document.content query then
        score + calculateFieldScore document.content query
      else score)
    else score
  let score :=
    if field = "query" ∧ document.query ≠ "" then
      (if 0 < calculateFieldScore document.query query then
        score + calculateFieldScore document.query query * (3 / 2)
      else score)
    else score
  score

/-- Relevance score of one document over the requested fields. -/
def documentScore (document : Document) (query : String)
    (fields : List String) : ℚ :=
  fields.foldl (scoreStep document query) 0

/-- A scored search result (the snippets, which no claim concerns, are
omitted). -/
structure ScoredResult where
  document : Document
  score : ℚ
deriving DecidableEq

/-- Insert into a descending-by-score list, before the first element of
strictly smaller score: the stable insertion step. -/
def insertByScoreDesc (x : ScoredResult) :
    List ScoredResult → List ScoredResult
  | [] => [x]
  | y :: ys =>
    if y.score ≤ x.score then x :: y :: ys else y :: insertByScoreDesc x ys

/-- The stable descending sort the JS comparator (b.score - a.score)
performs; stable sorting by a total preorder has a unique result, so
stable insertion sort models it exactly. -/
def sortByScoreDesc : List ScoredResult → List ScoredResult
  | [] => []
  | x :: xs => insertByScoreDesc x (sortByScoreDesc xs)

/-- The default fields list of SearchAPI.searchDocuments. -/
def defaultFields : List String := ["title", "content", "query"]

/-- SearchAPI.searchDocuments: builds the full-text query (expanding
each term with a trailing star when fuzzy is set) exactly as the source
does, but, like the source, never uses it; then scores every document
over the requested fields, keeps the positive scores, sorts by
descending score and truncates to the limit. -/
def searchDocuments (docs : List Document) (query : String) (fuzzy : Bool)
    (fields : List String) (limit : Nat) : List ScoredResult :=
  let _ftsQuery : String :=
    if fuzzy then
      String.intercalate " "
        ((splitOnWs query.data).map (fun term => String.mk (term ++ ['*'])))
    else query
  (sortByScoreDesc
    ((docs.map (fun document =>
        ScoredResult.mk document (documentScore document query fields))).filter
      (fun result => decide (0 < result.score)))).take limit

/-- Write operations of the store (document and citation mutations). -/
inductive WriteOp
  | addDocument (d : Document)
  | updateDocument (d : Document)
  | deleteDocument (id : String)
  | addCitation (c : Citation)
deriving DecidableEq

/-- Effect of a write on the table state: addDocument inserts a row,
updateDocument replaces the row with the same id, deleteDocument removes
it (citations referencing it are kept: the schema has no delete
cascade), addCitation appends a row.  The generated random citation id
is irrelevant to every claim and is left as stored. -/
def applyWrite (db : DbState) : WriteOp → DbState
  | WriteOp.addDocument d => { db with documents := db.documents ++ [d] }
  | WriteOp.updateDocument d =>
    { db with documents :=
        db.documents.map (fun x => if x.id = d.id then d else x) }
  | WriteOp.deleteDocument id =>
    { db with documents := db.documents.filter (fun x => decide (x.id ≠ id)) }
  | WriteOp.addCitation c => { db with citations := db.citations ++ [c] }

/-- The store connection: the committed state, plus the working state of
the open transaction when one is open.  SQLite gives each connection at
most one open transaction. -/
structure Store where
  committed : DbState
  tx : Option DbState
deriving DecidableEq

/-- The state reads observe: the open transaction sees its own
uncommitted writes. -/
def workingDb (s : Store) : DbState :=
  s.tx.getD s.committed

/-- A write goes to the open transaction when there is one, else it is
autocommitted. -/
def writeOp (s : Store) (op : WriteOp) : Store :=
  match s.tx with
  | some w => { s with tx := some (applyWrite w op) }
  | none => { s with committed := applyWrite s.committed op }

/-- Errors the store raises on transaction misuse; nestedTransaction is
the SQLite cannot-start-a-transaction-within-a-transaction error named
in the transaction-management decision record of the repository. -/
inductive StoreError
  | nestedTransaction
  | noActiveTransaction
deriving DecidableEq

/-- SearchDatabase.beginTransaction: BEGIN fails when a transaction is
already open, else it snapshots the committed state. -/
def beginTransaction (s : Store) : Except StoreError Store :=
  match s.tx with
  | some _ => Except.error StoreError.nestedTransaction
  | none => Except.ok { s with tx := some s.committed }

/-- SearchDatabase.commitTransaction: COMMIT makes the working state
durable; it fails when no transaction is open. -/
def commitTransaction (s : Store) : Except StoreError Store :=
  match s.tx with
  | some w => Except.ok { committed := w, tx := none }
  | none => Except.error StoreError.noActiveTransaction

/-- SearchDatabase.rollbackTransaction: ROLLBACK discards the working
state; it fails when no transaction is open. -/
def rollbackTransaction (s : Store) : Except StoreError Store :=
  match s.tx with
  | some _ => Except.ok { committed := s.committed, tx := none }
  | none => Except.error StoreError.noActiveTransaction

/-- The store operations a component may issue: the transaction
primitives and the writes. -/
inductive StoreOp
  | beginTx
  | commitTx
  | rollbackTx
  | write (op : WriteOp)
deriving DecidableEq

/-- Interpret one store operation. -/
def applyStoreOp (s : Store) : StoreOp → Except StoreError Store
  | StoreOp.beginTx => beginTransaction s
  | StoreOp.commitTx => commitTransaction s
  | StoreOp.rollbackTx => rollbackTransaction s
  | StoreOp.write op => Except.ok (writeOp s op)

/-- Interpret a list of store operations, stopping at the first error
(a thrown store exception). -/
def applyStoreOps (s : Store) : List StoreOp → Except StoreError Store
  | [] => Except.ok s
  | op :: ops =>
    match applyStoreOp s op with
    | Except.error e => Except.error e
    | Except.ok s2 => applyStoreOps s2 ops

/-- The store operations CitationGraph.buildFromArchives issues: its own
BEGIN and COMMIT only when it manages the transaction, and one
addCitation write per built citation either way.  The citations are
computed from the documents the reads observe. -/
def buildFromArchivesOps (db : DbState) (manageTransaction : Bool) :
    List StoreOp :=
  (if manageTransaction then [StoreOp.beginTx] else []) ++
    (buildCitations db.documents).map
      (fun c => StoreOp.write (WriteOp.addCitation c)) ++
    (if manageTransaction then [StoreOp.commitTx] else [])

/-- Result of ArchiveScanner.scan as runIndexing consumes it: the
changed documents (already normalized), the deleted ids, and the scan
start time to be persisted on success. -/
structure ScanResult where
  documents : List Document
  deletedIds : List String
  scanTime : String
deriving DecidableEq

/-- The write runIndexing issues for one scanned document: an update
when a row with its id exists in the observed state, else an insert. -/
def upsertOp (db : DbState) (d : Document) : WriteOp :=
  match getDocument db d.id with
  | some _ => WriteOp.updateDocument d
  | none => WriteOp.addDocument d

/-- The document-writing phase of IndexingTrigger.runIndexing: for each
scanned document, update it when a row with its id exists in the state
the open transaction observes, else insert it. -/
def upsertDocuments (s : Store) (docs : List Document) : Store :=
  docs.foldl (fun s d => writeOp s (upsertOp (workingDb s) d)) s

/-- The deletion phase of IndexingTrigger.runIndexing. -/
def deleteDocuments (s : Store) (ids : List String) : Store :=
  ids.foldl (fun s id => writeOp s (WriteOp.deleteDocument id)) s

/-- How a run ends when it does not succeed: a store exception, or the
exception thrown by the citation-build step (the modelled mid-run
failure point after the transaction has been opened). -/
inductive RunError
  | storeError (e : StoreError)
  | citationBuildError
deriving DecidableEq

/-- Observable outcome of one runIndexing call: the store, the persisted
state file (the lastScanTime it records, if any), and the error that was
rethrown, if any. -/
structure RunResult where
  store : Store
  stateFile : Option String
  err : Option RunError
deriving DecidableEq

/-- IndexingTrigger.runIndexing: open one transaction; upsert the
scanned documents and apply the deletions inside it; run the citation
build with manageTransaction set to false inside the same transaction;
on success commit and only then write the state file with the new scan
time; on an exception inside the transaction roll back, leave the state
file untouched and rethrow. -/
def runIndexing (store : Store) (stateFile : Option String)
    (scan : ScanResult) (citationBuildThrows : Bool) : RunResult :=
  match applyStoreOp store StoreOp.beginTx with
  | Except.error e =>
    { store := store, stateFile := stateFile,
      err := some (RunError.storeError e) }
  | Except.ok s1 =>
    let s2 := upsertDocuments s1 scan.documents
    let s3 := deleteDocuments s2 scan.deletedIds
    if citationBuildThrows then
      match applyStoreOp s3 StoreOp.rollbackTx with
      | Except.ok s4 =>
        { store := s4, stateFile := stateFile,
          err := some RunError.citationBuildError }
      | Except.error e =>
        { store := s3, stateFile := stateFile,
          err := some (RunError.storeError e) }
    else
      match applyStoreOps s3 (buildFromArchivesOps (workingDb s3) false) with
      | Except.error e =>
        match applyStoreOp s3 StoreOp.rollbackTx with
        | Except.ok s4 =>
          { store := s4, stateFile := stateFile,
            err := some (RunError.storeError e) }
        | Except.error e2 =>
          { store := s3, stateFile := stateFile,
            err := some (RunError.storeError e2) }
      | Except.ok s4 =>
        match applyStoreOp s4 StoreOp.commitTx with
        | Except.ok s5 =>
          { store := s5, stateFile := some scan.scanTime, err := none }
        | Except.error e =>
          match applyStoreOp s4 StoreOp.rollbackTx with
          | Except.ok s6 =>
            { store := s6, stateFile := stateFile,
              err := some (RunError.storeError e) }
          | Except.error e2 =>
            { store := s4, stateFile := stateFile,
              err := some (RunError.storeError e2) }

/-- Table-level effect of one successful run: upserts, deletions, then
the appended citation build over the resulting documents. -/
def runIndexingDb (db : DbState) (scan : ScanResult) : DbState :=
  let db1 := scan.documents.foldl
    (fun db d => applyWrite db (upsertOp db d)) db
  let db2 := scan.deletedIds.foldl
    (fun db id => applyWrite db (WriteOp.deleteDocument id)) db1
  { db2 with citations := db2.citations ++ buildCitations db2.documents }

/-- Concrete research document with exactly one markdown link, the
content of the explicit-citation testable property. -/
def docR : Document :=
  { id := "r1", title := "Alpha", path := "research/r1.md",
    source := "research", type := "report", date := "2025-01-01",
    metadata := { originalUrl := none },
    content := "See [my link](https://x.com/a)", query := "" }

/-- The one explicit citation of docR: confidence 1.0, the linked URL,
and (the content being short) the whole content as context. -/
def linkCitationR : Citation :=
  { id := none, sourceId := "r1", targetUrl := "https://x.com/a",
    targetId := none, context := "See [my link](https://x.com/a)",
    confidence := 1 }

/-- Concrete captured url-content document whose recorded original URL
differs from the URL cited by docR only in scheme and trailing slash. -/
def docU : Document :=
  { id := "u1", title := "Captured", path := "url-content/u1.md",
    source := "url-content", type := "webpage", date := "2025-01-01",
    metadata := { originalUrl := some "http://x.com/a/" },
    content := "page text", query := "" }

/-- Citation edge from document A to document B (A cites B). -/
def citAB : Citation :=
  { id := none, sourceId := "A", targetUrl := "https://b.example",
    targetId := some "B", context := "ctx", confidence := 1 }

/-- Citation edge from document B to document C (B cites C). -/
def citBC : Citation :=
  { id := none, sourceId := "B", targetUrl := "https://c.example",
    targetId := some "C", context := "ctx", confidence := 1 }

/-- Concrete document A of the citation-report example. -/
def docA6 : Document :=
  { id := "A", title := "A", path := "a", source := "research",
    type := "report", date := "d", metadata := { originalUrl := none },
    content := "alpha body", query := "" }

/-- Concrete document B of the citation-report example. -/
def docB6 : Document :=
  { id := "B", title := "B", path := "b", source := "url-content",
    type := "webpage", date := "d", metadata := { originalUrl := none },
    content := "beta body", query := "" }

/-- Store state with documents A and B and the single citation A cites
B. -/
def c6Db : DbState :=
  { documents := [docA6, docB6], citations := [citAB] }

/-- Search corpus member with the query term alpha in its title only. -/
def docX5 : Document :=
  { id := "X5", title := "alpha", path := "x", source := "research",
    type := "report", date := "d", metadata := { originalUrl := none },
    content := "nothing here", query := "" }

/-- Search corpus member with the query term alpha three times in its
body content and nowhere else. -/
def docY5 : Document :=
  { id := "Y5", title := "beta", path := "y", source := "research",
    type := "report", date := "d", metadata := { originalUrl := none },
    content := "alpha alpha alpha", query := "" }

/-- Search corpus member with the query term alpha once in its body
content and nowhere else. -/
def docY5one : Document :=
  { id := "Y5one", title := "beta", path := "y", source := "research",
    type := "report", date := "d", metadata := { originalUrl := none },
    content := "alpha", query := "" }

/-- Document whose content contains the word alphabet, of which the
query term alph is a proper prefix. -/
def docC9 : Document :=
  { id := "C9", title := "unrelated", path := "c", source := "research",
    type := "report", date := "d", metadata := { originalUrl := none },
    content := "the alphabet is long", query := "" }

/-- An empty store with no open transaction. -/
def store0 : Store :=
  { committed := { documents := [], citations := [] }, tx := none }

/-- Scan result of a first indexing pass that found docR. -/
def scan1 : ScanResult :=
  { documents := [docR], deletedIds := [], scanTime := "t1" }

/-- A fold whose step fixes the accumulator on every list element fixes
it on the whole list. -/
theorem foldl_fixed {α β : Type} (f : β → α → β) (b : β) (l : List α)
    (h : ∀ a ∈ l, f b a = b) : l.foldl f b = b := by
  induction l with
  | nil => rfl
  | cons a t ih =>
    rw [List.foldl_cons, h a (List.mem_cons_self a t)]
    exact ih fun x hx => h x (List.mem_cons_of_mem a hx)

/-- find? succeeds when some member satisfies the predicate. -/
theorem find?_isSome_of_mem {α : Type} (p : α → Bool) (l : List α) (a : α)
    (ha : a ∈ l) (hp : p a = true) : ∃ b, l.find? p = some b := by
  induction l with
  | nil => cases ha
  | cons x xs ih =>
    by_cases hx : p x = true
    · exact ⟨x, by simp [List.find?_cons, hx]⟩
    · rcases List.mem_cons.mp ha with rfl | ha2
      · exact absurd hp hx
      · obtain ⟨b, hb⟩ := ih ha2
        exact ⟨b, by simp [List.find?_cons, hx, hb]⟩

/-- Every citation the citing query returns has the document as its
target. -/
theorem mem_findCitations (citations : List Citation) (documentId : String)
    (c : Citation) (hc : c ∈ findCitations citations documentId) :
    c.targetId = some documentId := by
  have h := List.mem_filter.mp hc
  exact of_decide_eq_true h.2

/-- Every citation the cited query returns has the document as its
source. -/
theorem mem_findReferences (citations : List Citation) (documentId : String)
    (c : Citation) (hc : c ∈ findReferences citations documentId) :
    c.sourceId = documentId := by
  have h := List.mem_filter.mp hc
  exact of_decide_eq_true h.2

/-- When every queued id is already visited, the traversal loop can
never add anything: the citing rows of the dequeued id all carry that id
as target, the cited rows all carry it as source, and both are
visited. -/
theorem relatedLoop_fixed (citations : List Citation) (depth : Nat) :
    ∀ (fuel : Nat) (st : TraversalState),
      (∀ q ∈ st.queue, q.id ∈ st.visited) →
      relatedLoop citations depth fuel st = st.related := by
  intro fuel
  induction fuel with
  | zero => intro st _; rfl
  | succ n ih =>
    intro st h
    rcases hq : st.queue with _ | ⟨item, rest⟩
    · simp [relatedLoop, hq]
    · have hmem : item.id ∈ st.visited :=
        h item (by rw [hq]; exact List.mem_cons_self _ _)
      have hrest : ∀ q ∈ rest, q.id ∈ st.visited := fun q hq2 =>
        h q (by rw [hq]; exact List.mem_cons_of_mem _ hq2)
      have hst1 : ((findCitations citations item.id).foldl
          (addCiting item.currentDepth)
          { queue := rest, visited := st.visited, related := st.related }) =
          { queue := rest, visited := st.visited, related := st.related } := by
        apply foldl_fixed
        intro c hc
        have ht := mem_findCitations citations item.id c hc
        simp [addCiting, ht, hmem]
      have hst2 : ((findReferences citations item.id).foldl
          (addCited item.currentDepth)
          { queue := rest, visited := st.visited, related := st.related }) =
          { queue := rest, visited := st.visited, related := st.related } := by
        apply foldl_fixed
        intro c hc
        have hs := mem_findReferences citations item.id c hc
        simp [addCited, hs, hmem]
      have htail : relatedLoop citations depth n
          { queue := rest, visited := st.visited, related := st.related } =
          st.related := ih _ hrest
      by_cases hd : depth ≤ item.currentDepth
      · simp [relatedLoop, hq, hd, htail]
      · simp [relatedLoop, hq, hd, hst1, hst2, htail]

/-- A fold of writes over a store with an open transaction leaves the
committed state untouched and mirrors, inside the transaction, the same
fold over the table state. -/
theorem foldl_writeOp_tx {α : Type} (opOf : DbState → α → WriteOp)
    (l : List α) :
    ∀ (s : Store) (w : DbState), s.tx = some w →
      l.foldl (fun s a => writeOp s (opOf (workingDb s) a)) s =
        { committed := s.committed,
          tx := some (l.foldl (fun db a => applyWrite db (opOf db a)) w) } := by
  induction l with
  | nil =>
    intro s w h
    cases s
    simp_all
  | cons a t ih =>
    intro s w h
    rw [List.foldl_cons, List.foldl_cons]
    have hwork : workingDb s = w := by simp [workingDb, h]
    have hw : writeOp s (opOf (workingDb s) a) =
        { committed := s.committed,
          tx := some (applyWrite w (opOf w a)) } := by
      rw [hwork]
      simp [writeOp, h]
    rw [hw]
    exact ih _ _ rfl

/-- Interpreting a list of plain writes never raises and folds them into
the store. -/
theorem applyStoreOps_writes (ops : List WriteOp) :
    ∀ s : Store,
      applyStoreOps s (ops.map StoreOp.write) =
        Except.ok (ops.foldl writeOp s) := by
  induction ops with
  | nil => intro s; rfl
  | cons op t ih =>
    intro s
    rw [List.map_cons, applyStoreOps, List.foldl_cons]
    exact ih _

/-- Folding addCitation writes over the table state appends them. -/
theorem foldl_addCitation (cs : List Citation) :
    ∀ db : DbState,
      cs.foldl (fun db c => applyWrite db (WriteOp.addCitation c)) db =
        { db with citations := db.citations ++ cs } := by
  induction cs with
  | nil => intro db; cases db; simp
  | cons c t ih =>
    intro db
    rw [List.foldl_cons, ih]
    simp [applyWrite]

/-- The document-writing phase inside an open transaction: the
committed state is untouched and the upserts fold over the working
state. -/
theorem upsertDocuments_tx (c w : DbState) (docs : List Document) :
    upsertDocuments { committed := c, tx := some w } docs =
      { committed := c,
        tx := some (docs.foldl
          (fun db d => applyWrite db (upsertOp db d)) w) } :=
  foldl_writeOp_tx upsertOp docs { committed := c, tx := some w } w rfl

/-- The deletion phase inside an open transaction. -/
theorem deleteDocuments_tx (c w : DbState) (ids : List String) :
    deleteDocuments { committed := c, tx := some w } ids =
      { committed := c,
        tx := some (ids.foldl
          (fun db id => applyWrite db (WriteOp.deleteDocument id)) w) } :=
  foldl_writeOp_tx (fun _ id => WriteOp.deleteDocument id) ids
    { committed := c, tx := some w } w rfl

/-- The citation-build phase invoked with manageTransaction false inside
an open transaction: no transaction primitive is issued, nothing can be
raised, and the built citations are appended to the working state. -/
theorem applyStoreOps_buildFromArchives (c w : DbState) :
    applyStoreOps { committed := c, tx := some w }
        (buildFromArchivesOps w false) =
      Except.ok ⟨c, some ⟨w.documents,
        w.citations ++ buildCitations w.documents⟩⟩ := by
  have hops : buildFromArchivesOps w false =
      ((buildCitations w.documents).map WriteOp.addCitation).map
        StoreOp.write := by
    simp [buildFromArchivesOps, List.map_map]
  rw [hops, applyStoreOps_writes, List.foldl_map]
  rw [foldl_writeOp_tx (fun _ c => WriteOp.addCitation c)
    (buildCitations w.documents) { committed := c, tx := some w } w rfl]
  rw [foldl_addCitation]

/-- A successful run (no citation-build exception) commits exactly the
table-level effect and then records the new scan time. -/
theorem runIndexing_success (store : Store) (stateFile : Option String)
    (scan : ScanResult) (h : store.tx = none) :
    runIndexing store stateFile scan false =
      { store := { committed := runIndexingDb store.committed scan,
                   tx := none },
        stateFile := some scan.scanTime, err := none } := by
  have hbegin : beginTransaction store =
      Except.ok { committed := store.committed,
                  tx := some store.committed } := by
    cases store
    simp_all [beginTransaction]
  simp only [runIndexing, applyStoreOp, hbegin, upsertDocuments_tx,
    deleteDocuments_tx, Bool.false_eq_true, if_false, workingDb,
    Option.getD_some, applyStoreOps_buildFromArchives, commitTransaction,
    runIndexingDb]

/-- A run whose citation-build step throws rolls the open transaction
back and rethrows: the committed tables and the state file are those
from before the run. -/
theorem runIndexing_failure (store : Store) (stateFile : Option String)
    (scan : ScanResult) (h : store.tx = none) :
    runIndexing store stateFile scan true =
      { store := { committed := store.committed, tx := none },
        stateFile := stateFile,
        err := some RunError.citationBuildError } := by
  have hbegin : beginTransaction store =
      Except.ok { committed := store.committed,
                  tx := some store.committed } := by
    cases store
    simp_all [beginTransaction]
  simp only [runIndexing, applyStoreOp, hbegin, upsertDocuments_tx,
    deleteDocuments_tx, if_true, rollbackTransaction]

/-- The term-score fold only ever adds nonnegative counts. -/
theorem scoreFoldl_nonneg (nt : List Char) (terms : List (List Char)) :
    ∀ acc : ℚ, 0 ≤ acc →
      0 ≤ terms.foldl
        (fun score term =>
          if 0 < countMatches nt term then
            score + (countMatches nt term : ℚ)
          else score)
        acc := by
  induction terms with
  | nil => intro acc h; exact h
  | cons t ts ih =>
    intro acc h
    rw [List.foldl_cons]
    apply ih
    by_cases hc : 0 < countMatches nt t
    · rw [if_pos hc]
      exact add_nonneg h (by positivity)
    · rwa [if_neg hc]

/-- Field scores are never negative. -/
theorem calculateFieldScore_nonneg (text query : String) :
    0 ≤ calculateFieldScore text query := by
  unfold calculateFieldScore
  by_cases h : text = "" ∨ query = ""
  · rw [if_pos h]
  · rw [if_neg h]
    exact scoreFoldl_nonneg _ _ 0 le_rfl

/-- An empty field scores zero. -/
theorem calculateFieldScore_empty (query : String) :
    calculateFieldScore "" query = 0 := by
  unfold calculateFieldScore
  rw [if_pos (Or.inl rfl)]

/-- The title iteration of the fields loop always adds exactly twice the
title field score: when the guards fail, that score is zero. -/
theorem scoreStep_title (doc : Document) (q : String) (s : ℚ) :
    scoreStep doc q s "title" = s + calculateFieldScore doc.title q * 2 := by
  unfold scoreStep
  dsimp only
  have hc : ¬ (("title" : String) = "content" ∧ doc.content ≠ "") := by
    rintro ⟨h, -⟩
    exact absurd h (by decide)
  have hq : ¬ (("title" : String) = "query" ∧ doc.query ≠ "") := by
    rintro ⟨h, -⟩
    exact absurd h (by decide)
  rw [if_neg hc, if_neg hq]
  by_cases ht : doc.title = ""
  · have h0 : calculateFieldScore doc.title q = 0 := by
      rw [ht, calculateFieldScore_empty]
    have hguard : ¬ (("title" : String) = "title" ∧ doc.title ≠ "") := by
      rintro ⟨-, h⟩
      exact h ht
    rw [if_neg hguard, h0]
    ring
  · rw [if_pos ⟨rfl, ht⟩]
    by_cases hpos : 0 < calculateFieldScore doc.title q
    · rw [if_pos hpos]
    · have h0 : calculateFieldScore doc.title q = 0 :=
        le_antisymm (not_lt.mp hpos) (calculateFieldScore_nonneg _ _)
      rw [if_neg hpos, h0]
      ring

/-- The content iteration of the fields loop always adds exactly the
content field score. -/
theorem scoreStep_content (doc : Document) (q : String) (s : ℚ) :
    scoreStep doc q s "content" = s + calculateFieldScore doc.content q := by
  unfold scoreStep
  dsimp only
  have ht : ¬ (("content" : String) = "title" ∧ doc.title ≠ "") := by
    rintro ⟨h, -⟩
    exact absurd h (by decide)
  have hq : ¬ (("content" : String) = "query" ∧ doc.query ≠ "") := by
    rintro ⟨h, -⟩
    exact absurd h (by decide)
  rw [if_neg ht, if_neg hq]
  by_cases hc : doc.content = ""
  · have h0 : calculateFieldScore doc.content q = 0 := by
      rw [hc, calculateFieldScore_empty]
    have hguard : ¬ (("content" : String) = "content" ∧ doc.content ≠ "") := by
      rintro ⟨-, h⟩
      exact h hc
    rw [if_neg hguard, h0, add_zero]
  · rw [if_pos ⟨rfl, hc⟩]
    by_cases hpos : 0 < calculateFieldScore doc.content q
    · rw [if_pos hpos]
    · have h0 : calculateFieldScore doc.content q = 0 :=
        le_antisymm (not_lt.mp hpos) (calculateFieldScore_nonneg _ _)
      rw [if_neg hpos, h0, add_zero]

/-- The query-field iteration of the fields loop always adds exactly
one-and-a-half times the query field score. -/
theorem scoreStep_query (doc : Document) (q : String) (s : ℚ) :
    scoreStep doc q s "query" =
      s + calculateFieldScore doc.query q * (3 / 2) := by
  unfold scoreStep
  dsimp only
  have ht : ¬ (("query" : String) = "title" ∧ doc.title ≠ "") := by
    rintro ⟨h, -⟩
    exact absurd h (by decide)
  have hc : ¬ (("query" : String) = "content" ∧ doc.content ≠ "") := by
    rintro ⟨h, -⟩
    exact absurd h (by decide)
  rw [if_neg ht, if_neg hc]
  by_cases hq : doc.query = ""
  · have h0 : calculateFieldScore doc.query q = 0 := by
      rw [hq, calculateFieldScore_empty]
    have hguard : ¬ (("query" : String) = "query" ∧ doc.query ≠ "") := by
      rintro ⟨-, h⟩
      exact h hq
    rw [if_neg hguard, h0]
    ring
  · rw [if_pos ⟨rfl, hq⟩]
    by_cases hpos : 0 < calculateFieldScore doc.query q
    · rw [if_pos hpos]
    · have h0 : calculateFieldScore doc.query q = 0 :=
        le_antisymm (not_lt.mp hpos) (calculateFieldScore_nonneg _ _)
      rw [if_neg hpos, h0]
      ring

/-- Over the default fields, a document scores twice its title score
plus its content score plus one-and-a-half times its query score. -/
theorem documentScore_default (doc : Document) (q : String) :
    documentScore doc q defaultFields =
      calculateFieldScore doc.title q * 2 +
        calculateFieldScore doc.content q +
        calculateFieldScore doc.query q * (3 / 2) := by
  show List.foldl (scoreStep doc q) 0 ["title", "content", "query"] = _
  rw [List.foldl_cons, List.foldl_cons, List.foldl_cons, List.foldl_nil]
  rw [scoreStep_title, scoreStep_content, scoreStep_query]
  ring

/-- C1: when an exception is thrown after the store transaction has
been opened (the citation-build step throwing mid-run), runIndexing
rolls the transaction back and rethrows, so the committed document and
citation tables and the persisted state file equal their pre-run state;
and the state file changes only on a run that commits successfully, in
which case it records the new scan time. -/
theorem runIndexing_atomic (store : Store) (stateFile : Option String)
    (scan : ScanResult) (throws : Bool) (h : store.tx = none) :
    (runIndexing store stateFile scan true).store.committed =
      store.committed ∧
    (runIndexing store stateFile scan true).store.tx = none ∧
    (runIndexing store stateFile scan true).stateFile = stateFile ∧
    (runIndexing store stateFile scan true).err =
      some RunError.citationBuildError ∧
    ((runIndexing store stateFile scan throws).stateFile = stateFile ∨
      ((runIndexing store stateFile scan throws).err = none ∧
        (runIndexing store stateFile scan throws).stateFile =
          some scan.scanTime)) := by
  rw [runIndexing_failure store stateFile scan h]
  refine ⟨rfl, rfl, rfl, rfl, ?_⟩
  cases throws
  · right
    rw [runIndexing_success store stateFile scan h]
    exact ⟨rfl, rfl⟩
  · left
    rw [runIndexing_failure store stateFile scan h]

/-- Witness for C1 at the empty store and the one-document scan. -/
theorem runIndexing_atomic_witness :
    (runIndexing store0 none scan1 true).store.committed =
      store0.committed ∧
    (runIndexing store0 none scan1 true).store.tx = none ∧
    (runIndexing store0 none scan1 true).stateFile = none ∧
    (runIndexing store0 none scan1 true).err =
      some RunError.citationBuildError ∧
    ((runIndexing store0 none scan1 true).stateFile = none ∨
      ((runIndexing store0 none scan1 true).err = none ∧
        (runIndexing store0 none scan1 true).stateFile =
          some scan1.scanTime)) :=
  runIndexing_atomic store0 none scan1 true rfl

/-- C2: the breadth-first traversal of findRelatedDocuments reads the
wrong end of each citation row: from the citing rows (selected by
targetId equal to the dequeued id) it takes the targetId, and from the
cited rows (selected by sourceId) it takes the sourceId, both of which
are the dequeued, already-visited id, so nothing is ever enqueued or
related.  For the stored graph where A cites B and B cites C it returns
the empty set at depth 1 and depth 2 instead of the specified B and B,
C, and in general it returns the empty list for every store, origin and
depth (which also makes the origin-exclusion part vacuously true). -/
theorem findRelatedDocuments_returns_empty :
    findRelatedDocuments [citAB, citBC] "A" 1 = [] ∧
    findRelatedDocuments [citAB, citBC] "A" 2 = [] ∧
    ∀ (citations : List Citation) (documentId : String) (depth : Nat),
      findRelatedDocuments citations documentId depth = [] := by
  have hgen : ∀ (citations : List Citation) (documentId : String)
      (depth : Nat),
      findRelatedDocuments citations documentId depth = [] := by
    intro citations documentId depth
    have hinv : ∀ q ∈ [({ id := documentId, currentDepth := 0 } : QItem)],
        q.id ∈ [documentId] := by
      intro q hq
      rw [List.mem_singleton.mp hq]
      exact List.mem_singleton.mpr rfl
    have h := relatedLoop_fixed citations depth (2 * citations.length + 2)
      { queue := [{ id := documentId, currentDepth := 0 }],
        visited := [documentId], related := [] } hinv
    unfold findRelatedDocuments
    rw [h]
    rfl
  exact ⟨hgen _ _ _, hgen _ _ _, hgen⟩

/-- C3 counterexample: starting from the empty store, a first pass over
one research document containing one markdown link commits 2 citations,
and a second pass with no filesystem changes (an empty incremental scan)
commits 4: the second pass appends a fresh extraction instead of
superseding the first, so the citation counts after the two runs
differ. -/
theorem reindex_not_idempotent_counterexample :
    (runIndexing store0 none scan1 false).store.committed.citations.length
      = 2 ∧
    (runIndexing (runIndexing store0 none scan1 false).store
        (runIndexing store0 none scan1 false).stateFile
        { documents := [], deletedIds := [], scanTime := "t2" }
        false).store.committed.citations.length = 4 ∧
    (runIndexing (runIndexing store0 none scan1 false).store
        (runIndexing store0 none scan1 false).stateFile
        { documents := [], deletedIds := [], scanTime := "t2" }
        false).store.committed.citations.length ≠
      (runIndexing store0 none scan1 false).store.committed.citations.length
    := by
  decide

/-- C3 amended: every full pass regenerates the citation list from the
current documents but appends it to the stored citations instead of
superseding them.  After a second run with no filesystem changes the
document table is unchanged, while the citation count grows by the size
of the citation set rebuilt from the stored documents, so the counts
match only when that set is empty. -/
theorem reindex_appends_citations (store : Store)
    (stateFile : Option String) (scan : ScanResult) (t2 : String)
    (h : store.tx = none) :
    (runIndexing (runIndexing store stateFile scan false).store
        (runIndexing store stateFile scan false).stateFile
        { documents := [], deletedIds := [], scanTime := t2 }
        false).store.committed.documents =
      (runIndexing store stateFile scan false).store.committed.documents ∧
    (runIndexing (runIndexing store stateFile scan false).store
        (runIndexing store stateFile scan false).stateFile
        { documents := [], deletedIds := [], scanTime := t2 }
        false).store.committed.citations.length =
      (runIndexing store stateFile scan false).store.committed.citations.length
        + (buildCitations
            (runIndexing store stateFile scan
              false).store.committed.documents).length := by
  rw [runIndexing_success store stateFile scan h]
  rw [runIndexing_success _ _ _ rfl]
  simp only [runIndexingDb, List.foldl_nil, List.length_append]
  exact ⟨trivial, trivial⟩

/-- Witness for C3 amended at the empty store and one-document scan. -/
theorem reindex_appends_citations_witness :
    (runIndexing (runIndexing store0 none scan1 false).store
        (runIndexing store0 none scan1 false).stateFile
        { documents := [], deletedIds := [], scanTime := "t2" }
        false).store.committed.documents =
      (runIndexing store0 none scan1 false).store.committed.documents ∧
    (runIndexing (runIndexing store0 none scan1 false).store
        (runIndexing store0 none scan1 false).stateFile
        { documents := [], deletedIds := [], scanTime := "t2" }
        false).store.committed.citations.length =
      (runIndexing store0 none scan1 false).store.committed.citations.length
        + (buildCitations
            (runIndexing store0 none scan1
              false).store.committed.documents).length :=
  reindex_appends_citations store0 none scan1 "t2" rfl

/-- C4: runIndexing invokes buildFromArchives with manageTransaction set
to false, under which the citation-build phase issues only addCitation
writes and no transaction primitive at all; consequently a run started
with no transaction open keeps exactly one transaction open from the
document-writing phase through the citation-building phase and can never
raise the nested-transaction store error: it either succeeds or rethrows
only the citation-build exception. -/
theorem runIndexing_single_transaction (db : DbState) (store : Store)
    (stateFile : Option String) (scan : ScanResult) (throws : Bool)
    (h : store.tx = none) :
    buildFromArchivesOps db false =
      (buildCitations db.documents).map
        (fun c => StoreOp.write (WriteOp.addCitation c)) ∧
    (runIndexing store stateFile scan throws).err =
      (if throws then some RunError.citationBuildError else none) := by
  constructor
  · simp [buildFromArchivesOps]
  · cases throws
    · rw [runIndexing_success store stateFile scan h]
      rfl
    · rw [runIndexing_failure store stateFile scan h]
      rfl

/-- Witness for C4 at a concrete table state, the empty store and the
one-document scan, with the citation build throwing. -/
theorem runIndexing_single_transaction_witness :
    buildFromArchivesOps c6Db false =
      (buildCitations c6Db.documents).map
        (fun c => StoreOp.write (WriteOp.addCitation c)) ∧
    (runIndexing store0 none scan1 true).err =
      (if true then some RunError.citationBuildError else none) :=
  runIndexing_single_transaction c6Db store0 none scan1 true rfl

/-- C5 counterexample: with the single-term query alpha, document X5
contains the term in its title (and nowhere else) and document Y5 only
in its body content (three times), yet search ranks Y5 (score 3) above
X5 (score 2): term frequency in the body can outweigh the doubled title
weight, so the universally quantified ranking claim fails. -/
theorem ranking_title_counterexample :
    (searchDocuments [docX5, docY5] "alpha" false defaultFields 50).map
      (fun r => r.document.id) = ["Y5", "X5"] ∧
    0 < countMatches (docX5.title.data.map Char.toLower) "alpha".data ∧
    countMatches (docX5.content.data.map Char.toLower) "alpha".data = 0 ∧
    countMatches (docY5.title.data.map Char.toLower) "alpha".data = 0 ∧
    0 < countMatches (docY5.content.data.map Char.toLower) "alpha".data := by
  decide

/-- C5 amended: the relevance score weighs each title occurrence of a
term exactly twice a content occurrence (and a query-field occurrence
one-and-a-half times), so a document whose title contains the single
query term outranks one containing it only once in body content, as in
the concrete corpus X5 (score 2) above Y5one (score 1); but when the
term is frequent enough in the body of the other document, it can
rank higher. -/
theorem ranking_weights (doc : Document) (q : String) :
    documentScore doc q defaultFields =
      calculateFieldScore doc.title q * 2 +
        calculateFieldScore doc.content q +
        calculateFieldScore doc.query q * (3 / 2) ∧
    (searchDocuments [docX5, docY5one] "alpha" false defaultFields 50).map
      (fun r => r.document.id) = ["X5", "Y5one"] :=
  ⟨documentScore_default doc q, by decide⟩

/-- C6: generateCitationReport assigns the citing list (rows whose
targetId is the document, i.e. its incoming edges) to outgoingCount and
the cited list (rows whose sourceId is the document, its outgoing edges)
to incomingCount; for the store where A cites B (one row with sourceId A
and targetId B) the report for A returns outgoingCount 0 and
incomingCount 1, the swap of the counts the claim specifies, while
averageConfidence is the mean over both edge sets as specified. -/
theorem generateCitationReport_counts_swapped :
    generateCitationReport c6Db "A" =
      some { outgoingCount := 0, incomingCount := 1,
             averageConfidence := 1 } ∧
    (c6Db.citations.filter (fun c => decide (c.sourceId = "A"))).length
      = 1 ∧
    (c6Db.citations.filter
      (fun c => decide (c.targetId = some "A"))).length = 0 := by
  decide

/-- C7: when the recorded original URL of a url-content document and a cited
URL normalize (scheme and one trailing slash stripped, lowercased) to
the same string, and every candidate that matches carries the same id,
matchUrlReferences returns the explicit citation with its targetId set
to the id of that document; and the recorded URL with http scheme and a
trailing slash normalizes equal to the https form without one. -/
theorem matchUrlReferences_resolves (document matchingDoc : Document)
    (urlContentDocuments : List Document) (citation : Citation)
    (hc : citation ∈ extractExplicitCitations document)
    (hmatch : normalizeUrl (matchingDoc.metadata.originalUrl.getD "") =
      normalizeUrl citation.targetUrl)
    (hmem : matchingDoc ∈ urlContentDocuments)
    (huniq : ∀ d ∈ urlContentDocuments,
      normalizeUrl (d.metadata.originalUrl.getD "") =
        normalizeUrl citation.targetUrl → d.id = matchingDoc.id) :
    { citation with targetId := some matchingDoc.id } ∈
      matchUrlReferences document urlContentDocuments ∧
    normalizeUrl "http://x.com/a/" = normalizeUrl "https://x.com/a" := by
  constructor
  · obtain ⟨d0, hfind⟩ := find?_isSome_of_mem
      (fun doc => decide (normalizeUrl (doc.metadata.originalUrl.getD "") =
        normalizeUrl citation.targetUrl))
      urlContentDocuments matchingDoc hmem (decide_eq_true hmatch)
    have hfound := List.find?_some hfind
    have hd0p : normalizeUrl (d0.metadata.originalUrl.getD "") =
        normalizeUrl citation.targetUrl := of_decide_eq_true hfound
    have hd0mem : d0 ∈ urlContentDocuments :=
      List.mem_of_find?_eq_some hfind
    have hid : d0.id = matchingDoc.id := huniq d0 hd0mem hd0p
    unfold matchUrlReferences
    refine List.mem_map.mpr ⟨citation, hc, ?_⟩
    simp only [hfind, hid]
  · decide

/-- Witness for C7: the one explicit citation of docR (cited URL with
https scheme and no trailing slash) resolves to docU (recorded original
URL with http scheme and a trailing slash). -/
theorem matchUrlReferences_resolves_witness :
    { linkCitationR with targetId := some docU.id } ∈
      matchUrlReferences docR [docU] ∧
    normalizeUrl "http://x.com/a/" = normalizeUrl "https://x.com/a" :=
  matchUrlReferences_resolves docR docU [docU] linkCitationR (by decide)
    (by decide) (by decide) (by decide)

/-- C8: every citation extractExplicitCitations returns has confidence
1.0 and the document as source, and arises from exactly one markdown
link match (url capture as targetUrl, 100-character window each side of
the match as context); the citation list is in bijection with the match
list, and the concrete content with one link yields exactly one citation
with targetUrl https://x.com/a and confidence 1.0. -/
theorem extractExplicitCitations_spec (document : Document) (c : Citation)
    (hc : c ∈ extractExplicitCitations document) :
    c.confidence = 1 ∧ c.sourceId = document.id ∧
    c ∈ (scanLinks document.content.data 0).map (linkCitation document) ∧
    (extractExplicitCitations document).length =
      (scanLinks document.content.data 0).length ∧
    extractExplicitCitations docR = [linkCitationR] := by
  by_cases hcont : document.content = ""
  · unfold extractExplicitCitations at hc
    rw [if_pos hcont] at hc
    cases hc
  · unfold extractExplicitCitations at hc
    rw [if_neg hcont] at hc
    obtain ⟨m, hm, rfl⟩ := List.mem_map.mp hc
    refine ⟨rfl, rfl, List.mem_map.mpr ⟨m, hm, rfl⟩, ?_, by decide⟩
    unfold extractExplicitCitations
    rw [if_neg hcont, List.length_map]

/-- Witness for C8 at docR and its one citation. -/
theorem extractExplicitCitations_spec_witness :
    linkCitationR.confidence = 1 ∧ linkCitationR.sourceId = docR.id ∧
    linkCitationR ∈ (scanLinks docR.content.data 0).map
      (linkCitation docR) ∧
    (extractExplicitCitations docR).length =
      (scanLinks docR.content.data 0).length ∧
    extractExplicitCitations docR = [linkCitationR] :=
  extractExplicitCitations_spec docR linkCitationR (by decide)

/-- C9 counterexample: with fuzzy set to false, the query term alph, a
proper prefix of the content word alphabet and occurring in no other
field of document C9, still matches and returns C9, because matching is
substring containment and the prefix-wildcard expansion is never
applied; this refutes the claim that such a document is not matched when
fuzzy is false. -/
theorem fuzzy_false_matches_counterexample :
    (searchDocuments [docC9] "alph" false defaultFields 50).map
      (fun r => r.document.id) = ["C9"] ∧
    "alph".data.isPrefixOf "alphabet".data = true ∧
    ("alph" : String) ≠ "alphabet" ∧
    countMatches (docC9.title.data.map Char.toLower) "alph".data = 0 := by
  decide

/-- C9 amended: searchDocuments builds the prefix-wildcard expansion of
the query when fuzzy is set, exactly as the source does, but never uses
it: the results are identical for fuzzy true and false, and a document
containing a word of which a query term is a proper prefix is matched in
both modes (substring matching), as document C9 is for the term alph. -/
theorem fuzzy_flag_no_effect (docs : List Document) (q : String)
    (fields : List String) (limit : Nat) :
    searchDocuments docs q true fields limit =
      searchDocuments docs q false fields limit ∧
    (searchDocuments [docC9] "alph" true defaultFields 50).map
      (fun r => r.document.id) = ["C9"] :=
  ⟨rfl, by decide⟩

/-- C10: extractExplicitCitations and matchUrlReferences each produce
one citation per markdown link occurrence (the latter re-extracting the
explicit list and possibly resolving targetIds), and buildFromArchives
appends and stores both lists plus the implicit ones, so one pass
persists 2n explicit-link-derived citations for a research document with
n links; concretely, the single-link document docR alone yields 2 stored
citations. -/
theorem buildFromArchives_double_citations (document : Document)
    (urlContentDocuments allDocuments : List Document) :
    (extractExplicitCitations document ++
        matchUrlReferences document urlContentDocuments).length =
      2 * (scanLinks document.content.data 0).length ∧
    documentCitations document urlContentDocuments allDocuments =
      extractExplicitCitations document ++
        matchUrlReferences document urlContentDocuments ++
        detectImplicitCitations document allDocuments ∧
    (buildCitations [docR]).length = 2 := by
  refine ⟨?_, rfl, by decide⟩
  rw [List.length_append]
  unfold matchUrlReferences
  rw [List.length_map]
  by_cases hcont : document.content = ""
  · unfold extractExplicitCitations
    rw [if_pos hcont]
    have hdata : document.content.data = [] := by rw [hcont]
    rw [hdata]
    rfl
  · unfold extractExplicitCitations
    rw [if_neg hcont, List.length_map]
    ring

end ResearchMCP
